import Mathlib

/-!
Shallow embedding of the survey service in src/backend/server.js
(Express app: create survey, submit responses, per-question analytics),
together with theorems about its analytics aggregator.

Modelling conventions:
* JavaScript runtime values that can appear as an answer are modelled by
  the inductive type JSVal; JS numbers are modelled as exact rationals
  (the arithmetic performed by the aggregator is subtraction and
  comparison of small decimal values, which is exact in IEEE doubles),
  represented as a numerator/positive-denominator pair JNum so that all
  operations are structurally computable; bridging lemmas relate each
  JNum operation to the corresponding fact about its value in ℚ. The
  NaN result of a failed conversion is modelled as Option.none of the
  conversion.
* Code that can throw a TypeError is modelled in the Except monad; the
  error string records which JS operation failed.
* String.prototype.trim is modelled on the ASCII whitespace fragment
  (space, tab, CR, LF), which covers everything the service's clients
  send.
* The in-memory DB object is a pair of partial maps keyed by survey id.
-/

set_option autoImplicit false

namespace SurveySrv

/-- Decidable equality of Except values, used to evaluate the embedding
on concrete inputs. -/
instance instDecEqExcept {ε α : Type} [DecidableEq ε] [DecidableEq α] :
    DecidableEq (Except ε α) := fun a b =>
  match a, b with
  | .error e, .error f =>
    if h : e = f then .isTrue (by rw [h]) else .isFalse (fun hc => h (Except.error.inj hc))
  | .ok x, .ok y =>
    if h : x = y then .isTrue (by rw [h]) else .isFalse (fun hc => h (Except.ok.inj hc))
  | .error _, .ok _ => .isFalse (fun hc => Except.noConfusion hc)
  | .ok _, .error _ => .isFalse (fun hc => Except.noConfusion hc)

/-- An exact rational value of a JS number: numerator over a positive
denominator, not necessarily in lowest terms. -/
structure JNum where
  num : Int
  den : Nat
  den_pos : 0 < den

instance : DecidableEq JNum := fun a b =>
  decidable_of_iff (a.num = b.num ∧ a.den = b.den) (by cases a; cases b; simp)

/-- The rational value represented by a JNum. -/
def JNum.toRat (j : JNum) : ℚ := (j.num : ℚ) / (j.den : ℚ)

/-- A JS integer as a JNum. -/
def JNum.ofInt (z : Int) : JNum := ⟨z, 1, Nat.one_pos⟩

/-- Negation of a JS number. -/
def JNum.neg (j : JNum) : JNum := ⟨-j.num, j.den, j.den_pos⟩

/-- Subtraction of an integer from a JS number (the expression v - min
of the scale branch). -/
def JNum.subInt (j : JNum) (z : Int) : JNum := ⟨j.num - z * (j.den : Int), j.den, j.den_pos⟩

/-- A JavaScript value as it can appear in a parsed JSON request body:
undefined (absent property), null, a boolean, a number, a string, or an
opaque (plain) object. -/
inductive JSVal where
  | vUndefined
  | vNull
  | vBool (b : Bool)
  | vNum (j : JNum)
  | vStr (s : String)
  | vObj
  deriving DecidableEq

/-- JS truthiness of a value: undefined, null, false, 0 and the empty
string are falsy; objects are truthy. -/
def truthy : JSVal → Bool
  | .vUndefined => false
  | .vNull => false
  | .vBool b => b
  | .vNum j => decide (j.num ≠ 0)
  | .vStr s => decide (s ≠ "")
  | .vObj => true

/-- Strip leading and trailing whitespace from a character list. -/
def trimChars (cs : List Char) : List Char :=
  ((cs.dropWhile Char.isWhitespace).reverse.dropWhile Char.isWhitespace).reverse

/-- String.prototype.trim on the ASCII whitespace fragment. -/
def jsTrim (s : String) : String := ⟨trimChars s.data⟩

/-- Value of a run of decimal digits, most significant first. -/
def digitsVal (ds : List Char) : Nat :=
  ds.foldl (fun a c => a * 10 + (c.toNat - 48)) 0

/-- Parse an unsigned decimal literal (digits, optionally a dot and more
digits). Returns none when the characters are not such a literal; this
models the decimal fragment of the ECMAScript StringToNumber grammar
(hex, exponents and Infinity, which the service never receives from its
frontend, are mapped to none, i.e. NaN). -/
def parseUnsigned (cs : List Char) : Option JNum :=
  let intPart := cs.takeWhile Char.isDigit
  let rest := cs.dropWhile Char.isDigit
  match rest with
  | [] => if intPart.isEmpty then none else some (JNum.ofInt (digitsVal intPart))
  | c :: rest2 =>
    if c = '.' then
      let fracPart := rest2.takeWhile Char.isDigit
      let rest3 := rest2.dropWhile Char.isDigit
      if rest3.isEmpty && !(intPart.isEmpty && fracPart.isEmpty) then
        some ⟨(digitsVal intPart : Int) * ((10 : Int) ^ fracPart.length) + (digitsVal fracPart : Int),
              10 ^ fracPart.length, Nat.pos_pow_of_pos _ (by norm_num)⟩
      else none
    else none

/-- ECMAScript StringToNumber: trim, empty string is 0, optional sign,
then a decimal literal; anything else is NaN (none). -/
def strToNumber (s : String) : Option JNum :=
  let t := jsTrim s
  if t = "" then some (JNum.ofInt 0)
  else
    match t.data with
    | '+' :: cs => parseUnsigned cs
    | '-' :: cs => (parseUnsigned cs).map JNum.neg
    | cs => parseUnsigned cs

/-- The JS Number(x) conversion; none models NaN. A plain object converts
via toString to a non-numeric string, hence NaN. -/
def toNumber : JSVal → Option JNum
  | .vUndefined => none
  | .vNull => some (JNum.ofInt 0)
  | .vBool b => some (JNum.ofInt (if b then 1 else 0))
  | .vNum j => some j
  | .vStr s => strToNumber s
  | .vObj => none

/-- The expression (x || '').trim() from the mcq branch of server.js:
a falsy x is replaced by the empty string (whose trim is itself); a
truthy string is trimmed; calling trim on a truthy non-string throws a
TypeError. -/
def trimAnswer (x : JSVal) : Except String String :=
  if truthy x then
    match x with
    | .vStr s => .ok (jsTrim s)
    | _ => .error "TypeError: trim is not a function"
  else .ok ""

/-- One element of a survey's question list, as stored from the creation
request body. The type tag is absent or a string; options entries are
modelled as strings and min/max as optional integers, the shapes the
frontend produces. -/
structure Question where
  qtype : Option String
  text : String
  options : Option (List String)
  min : Option Int
  max : Option Int
  deriving DecidableEq

/-- A stored survey: id, title and the ordered question list. -/
structure Survey where
  id : String
  title : String
  questions : List Question
  deriving DecidableEq

/-- One submitted response set: the server timestamp and the answers
array; an element is none when it is not an object carrying an answer
property (so element?.answer is undefined). -/
structure ResponseSet where
  ts : Nat
  answers : List (Option JSVal)
  deriving DecidableEq

/-- The expression r.answers[qi]?.answer: undefined when the index is out
of range or the element carries no answer value. -/
def answerAt (r : ResponseSet) (qi : Nat) : JSVal :=
  match r.answers.get? qi with
  | some (some v) => v
  | _ => .vUndefined

/-- The labels array of the mcq branch:
(q.options || []).map(o => (o || 'Option').trim()). -/
def labelsOf (q : Question) : List String :=
  (q.options.getD []).map (fun o => jsTrim (if o = "" then "Option" else o))

/-- Array.prototype.indexOf on a string array: index of the first equal
element, none when absent. -/
def jsIndexOf (l : List String) (a : String) : Option Nat :=
  match l with
  | [] => none
  | x :: xs => if x = a then some 0 else (jsIndexOf xs a).map (fun n => n + 1)

/-- counts[i]++ on an integer array (out-of-range index leaves the list
unchanged; the aggregator only calls it with in-range indices). -/
def bumpAt : List Int → Nat → List Int
  | [], _ => []
  | c :: cs, 0 => (c + 1) :: cs
  | c :: cs, n + 1 => c :: bumpAt cs n

/-- One iteration of the mcq forEach: trim the answer (may throw), look
it up in labels, and increment the matching count if any. -/
def mcqStep (ls : List String) (qi : Nat) (cs : List Int) (r : ResponseSet) :
    Except String (List Int) :=
  match trimAnswer (answerAt r qi) with
  | .error e => .error e
  | .ok a =>
    match jsIndexOf ls a with
    | some i => .ok (bumpAt cs i)
    | none => .ok cs

/-- The mcq forEach over the whole response list. -/
def mcqCounts (ls : List String) (qi : Nat) : List ResponseSet → List Int → Except String (List Int)
  | [], cs => .ok cs
  | r :: rs, cs =>
    match mcqStep ls qi cs r with
    | .error e => .error e
    | .ok cs2 => mcqCounts ls qi rs cs2

/-- One histogram bin of a scale summary. -/
structure Bin where
  label : String
  count : Int
  deriving DecidableEq

/-- bins[i].count++ on the bins array. -/
def bumpBin : List Bin → Nat → List Bin
  | [], _ => []
  | b :: bs, 0 => { b with count := b.count + 1 } :: bs
  | b :: bs, n + 1 => b :: bumpBin bs n

/-- Effective min of a scale question: Number(q.min ?? 1). -/
def minOf (q : Question) : Int := q.min.getD 1

/-- Effective max of a scale question: Number(q.max ?? 5). -/
def maxOf (q : Question) : Int := q.max.getD 5

/-- The initial bins array:
Array.from({length: max - min + 1}, (_, i) => ({label: String(min + i), count: 0})).
Array.from clamps a negative length to zero, hence Int.toNat. -/
def binsInit (q : Question) : List Bin :=
  (List.range (Int.toNat (maxOf q - minOf q + 1))).map
    (fun (i : Nat) => { label := toString (minOf q + (i : Int)), count := 0 })

/-- One iteration of the scale forEach: v = Number(answer); bi = v - min;
if bi is in [0, bins.length) then bins[bi].count++ — which throws a
TypeError when bi is not an integer, since bins[bi] is then undefined;
otherwise the answer is skipped (NaN comparisons are false). The
comparisons and the integrality test on the pair representation are the
rational comparisons, by JNum.nonneg_iff, JNum.lt_nat_iff and
JNum.isInt_iff. -/
def scaleStep (mn : Int) (qi : Nat) (bs : List Bin) (r : ResponseSet) :
    Except String (List Bin) :=
  match toNumber (answerAt r qi) with
  | none => .ok bs
  | some v =>
    if 0 ≤ (v.subInt mn).num ∧
       (v.subInt mn).num < (bs.length : Int) * ((v.subInt mn).den : Int) then
      if ((v.subInt mn).den : Int) ∣ (v.subInt mn).num then
        .ok (bumpBin bs ((v.subInt mn).num / ((v.subInt mn).den : Int)).toNat)
      else .error "TypeError: cannot read count of undefined"
    else .ok bs

/-- The scale forEach over the whole response list. -/
def scaleCounts (mn : Int) (qi : Nat) : List ResponseSet → List Bin → Except String (List Bin)
  | [], bs => .ok bs
  | r :: rs, bs =>
    match scaleStep mn qi bs r with
    | .error e => .error e
    | .ok bs2 => scaleCounts mn qi rs bs2

/-- The text branch: R.reduce((n, r) => r.answers[qi]?.answer ? n + 1 : n, 0). -/
def textCount (qi : Nat) (R : List ResponseSet) : Int :=
  R.foldl (fun n r => if truthy (answerAt r qi) then n + 1 else n) 0

/-- One per-question analytics summary, shaped by the question type tag. -/
inductive Summary where
  | mcq (text : String) (labels : List String) (counts : List Int)
  | scale (text : String) (bins : List Bin) (mn mx : Int)
  | text (text : String) (count : Int)
  deriving DecidableEq

/-- The body of s.questions.map((q, qi) => ...): dispatch on q.type;
anything that is neither mcq nor scale falls through to the text branch. -/
def summarizeQ (R : List ResponseSet) (qi : Nat) (q : Question) : Except String Summary :=
  if q.qtype = some "mcq" then
    match mcqCounts (labelsOf q) qi R ((labelsOf q).map (fun _ => (0 : Int))) with
    | .error e => .error e
    | .ok cs => .ok (.mcq q.text (labelsOf q) cs)
  else if q.qtype = some "scale" then
    match scaleCounts (minOf q) qi R (binsInit q) with
    | .error e => .error e
    | .ok bs => .ok (.scale q.text bs (minOf q) (maxOf q))
  else .ok (.text q.text (textCount qi R))

/-- The questions.map with its running index; a thrown TypeError aborts
the whole map. -/
def analyticsGo (R : List ResponseSet) : Nat → List Question → Except String (List Summary)
  | _, [] => .ok []
  | qi, q :: qs =>
    match summarizeQ R qi q with
    | .error e => .error e
    | .ok s =>
      match analyticsGo R (qi + 1) qs with
      | .error e => .error e
      | .ok rest => .ok (s :: rest)

/-- The analytics aggregation for one survey over its response list. -/
def analytics (s : Survey) (R : List ResponseSet) : Except String (List Summary) :=
  analyticsGo R 0 s.questions

/-- Errors a route can answer with: 404, 400 with a reason, or a 500
from an uncaught exception. -/
inductive RouteErr where
  | notFound
  | validation (msg : String)
  | internal (msg : String)
  deriving DecidableEq

/-- The in-memory DB object: two maps keyed by survey id. A key that was
never written maps to none, like a missing JS object property. -/
structure DBState where
  surveys : String → Option Survey
  responses : String → Option (List ResponseSet)

/-- The title defaulting title || 'Untitled' (empty string is falsy). -/
def titleOf (t : Option String) : String :=
  match t with
  | some s => if s = "" then "Untitled" else s
  | none => "Untitled"

/-- POST /api/surveys: reject a non-array questions body with 400,
otherwise store the survey under a fresh id (the generated uuid slice is
passed in as freshId) and initialise its response list. -/
def createSurvey (db : DBState) (freshId : String) (title : Option String)
    (questions : Option (List Question)) : (Except RouteErr String) × DBState :=
  match questions with
  | none => (.error (.validation "questions required"), db)
  | some qs =>
    (.ok freshId,
      { surveys := fun k => if k = freshId then some ⟨freshId, titleOf title, qs⟩ else db.surveys k,
        responses := fun k => if k = freshId then some [] else db.responses k })

/-- POST /api/surveys/:id/responses: 404 when the survey id is unknown,
400 when answers is not an array, otherwise push a timestamped response
set onto the survey's response list (now is the Date.now() value). -/
def submitRoute (db : DBState) (id : String) (answers : Option (List (Option JSVal)))
    (now : Nat) : (Except RouteErr Unit) × DBState :=
  match db.surveys id with
  | none => (.error .notFound, db)
  | some _ =>
    match answers with
    | none => (.error (.validation "answers required"), db)
    | some as =>
      match db.responses id with
      | none => (.error (.internal "TypeError: cannot read push of undefined"), db)
      | some rl =>
        (.ok (),
          { surveys := db.surveys,
            responses := fun k => if k = id then some (rl ++ [⟨now, as⟩]) else db.responses k })

/-- GET /api/surveys/:id/analytics: 404 when the survey id is unknown;
otherwise aggregate over DB.responses[id] || []. The route performs no
write to the DB. -/
def analyticsRoute (db : DBState) (id : String) : (Except RouteErr (List Summary)) × DBState :=
  match db.surveys id with
  | none => (.error .notFound, db)
  | some s =>
    match analytics s ((db.responses id).getD []) with
    | .error e => (.error (.internal e), db)
    | .ok out => (.ok out, db)


/-! Concrete fixtures used to evaluate the embedding on the scenarios of
the spec's testable properties. -/

/-- The single scale question of the end-to-end scenario. -/
def qC1 : Question := ⟨some "scale", "Q", none, some 1, some 3⟩

/-- The empty DB at process start. -/
def dbEmpty : DBState := ⟨fun _ => none, fun _ => none⟩

/-- The DB after creating the survey of the end-to-end scenario. -/
def dbC1 : DBState := (createSurvey dbEmpty "s1" (some "T") (some [qC1])).2

/-- First submission: answer 2. -/
def submitC1a : (Except RouteErr Unit) × DBState :=
  submitRoute dbC1 "s1" (some [some (.vNum (.ofInt 2))]) 1

/-- Second submission: answer 2. -/
def submitC1b : (Except RouteErr Unit) × DBState :=
  submitRoute submitC1a.2 "s1" (some [some (.vNum (.ofInt 2))]) 2

/-- Third submission: out-of-range answer 5. -/
def submitC1c : (Except RouteErr Unit) × DBState :=
  submitRoute submitC1b.2 "s1" (some [some (.vNum (.ofInt 5))]) 3

/-- A free_text question. -/
def qW7 : Question := ⟨some "free_text", "Q", none, none, none⟩

/-- Responses with a truthy, an empty and a missing answer. -/
def rsW7 : List ResponseSet := [⟨1, [some (.vStr "hi")]⟩, ⟨2, [some (.vStr "")]⟩, ⟨3, []⟩]

/-- An mcq question with two options. -/
def qW2 : Question := ⟨some "mcq", "Q", some ["Yes", "No"], none, none⟩

/-- A response whose answer trims to a string matching no label. -/
def rW2 : ResponseSet := ⟨1, [some (.vStr " Maybe ")]⟩

/-- A one-question scale survey with min 1 and max 3. -/
def svC3 : Survey := ⟨"s3", "T", [⟨some "scale", "Q", none, some 1, some 3⟩]⟩

/-- A response with the fractional answer 1.5. -/
def rC3 : ResponseSet := ⟨1, [some (.vNum ⟨3, 2, Nat.zero_lt_two⟩)]⟩

/-- A one-question mcq survey. -/
def svC4 : Survey := ⟨"s4", "T", [⟨some "mcq", "Q", some ["A"], none, none⟩]⟩

/-- A response answering the mcq question with the number 5. -/
def rC4 : ResponseSet := ⟨1, [some (.vNum (.ofInt 5))]⟩

/-- A response answering the mcq question with the string A. -/
def rSafe4 : ResponseSet := ⟨1, [some (.vStr "A")]⟩

/-- A response with an empty answers array (shorter than any question list). -/
def rShort : ResponseSet := ⟨1, []⟩

/-- A scale survey violating min <= max. -/
def svC5 : Survey := ⟨"s5", "T", [⟨some "scale", "Q", none, some 5, some 1⟩]⟩

/-- An mcq question whose two options coincide after trimming. -/
def qW10 : Question := ⟨some "mcq", "Q", some ["A", "A "], none, none⟩

/-- A response matching the duplicated label. -/
def rW10 : ResponseSet := ⟨1, [some (.vStr "A")]⟩

/-- Type-correct answers per question kind: an mcq answer must be falsy
or a string (anything else throws in trim), a scale answer must convert
to NaN or an integral number (a fractional in-range offset throws when
indexing bins); other kinds accept anything. -/
def safeAnswer (q : Question) (v : JSVal) : Prop :=
  (q.qtype = some "mcq" → truthy v = false ∨ ∃ s, v = JSVal.vStr s) ∧
  (q.qtype = some "scale" →
    toNumber v = none ∨ ∃ j, toNumber v = some j ∧ ((j.den : Int) ∣ j.num))

/-- The shape invariants of a summary: parallel labels/counts for mcq,
max(0, max - min + 1) bins for scale (exactly max - min + 1 when
min <= max), and all counts non-negative. -/
def summaryInv : Summary → Prop
  | .mcq _ ls cs => cs.length = ls.length ∧ ∀ c ∈ cs, 0 ≤ c
  | .scale _ bs mn mx => bs.length = (mx - mn + 1).toNat ∧
      (mn ≤ mx → (bs.length : Int) = mx - mn + 1) ∧ ∀ b ∈ bs, 0 ≤ b.count
  | .text _ c => 0 ≤ c

end SurveySrv

namespace SurveySrv

/-! Helper lemmas about the aggregation primitives. -/

theorem JNum.den_ne_zero (j : JNum) : (j.den : ℚ) ≠ 0 := by
  exact_mod_cast Nat.pos_iff_ne_zero.mp j.den_pos

theorem JNum.ofInt_toRat (z : Int) : (JNum.ofInt z).toRat = (z : ℚ) := by
  simp [JNum.ofInt, JNum.toRat]

theorem JNum.neg_toRat (j : JNum) : j.neg.toRat = -j.toRat := by
  simp [JNum.neg, JNum.toRat, neg_div]

theorem JNum.subInt_toRat (j : JNum) (z : Int) : (j.subInt z).toRat = j.toRat - (z : ℚ) := by
  have hd := j.den_ne_zero
  simp only [JNum.subInt, JNum.toRat]
  push_cast
  field_simp
  ring

/-- The comparison 0 <= j used by the embedding is the rational fact. -/
theorem JNum.nonneg_iff (j : JNum) : 0 ≤ j.num ↔ (0 : ℚ) ≤ j.toRat := by
  have hd : (0 : ℚ) < (j.den : ℚ) := by exact_mod_cast j.den_pos
  rw [JNum.toRat, le_div_iff₀ hd]
  simp [Int.cast_nonneg]

/-- The comparison j < n used by the embedding is the rational fact. -/
theorem JNum.lt_nat_iff (j : JNum) (n : Nat) : j.num < (n : Int) * (j.den : Int) ↔ j.toRat < (n : ℚ) := by
  have hd : (0 : ℚ) < (j.den : ℚ) := by exact_mod_cast j.den_pos
  rw [JNum.toRat, div_lt_iff₀ hd]
  exact_mod_cast Iff.rfl

/-- The integrality test used by the embedding is the rational fact that
the value is an integer. -/
theorem JNum.isInt_iff (j : JNum) : (j.den : Int) ∣ j.num ↔ ∃ z : Int, j.toRat = (z : ℚ) := by
  have hd := j.den_ne_zero
  constructor
  · rintro ⟨c, hc⟩
    refine ⟨c, ?_⟩
    rw [JNum.toRat, hc]
    push_cast
    field_simp
  · rintro ⟨z, hz⟩
    rw [JNum.toRat, div_eq_iff hd] at hz
    have hnum : j.num = z * (j.den : Int) := by exact_mod_cast hz
    exact ⟨z, by rw [hnum]; ring⟩

/-- When the value is the integer z, the index computed by the embedding
is exactly z. -/
theorem JNum.ediv_eq_of_int (j : JNum) (z : Int) (hz : j.toRat = (z : ℚ)) :
    j.num / (j.den : Int) = z := by
  have hd := j.den_ne_zero
  rw [JNum.toRat, div_eq_iff hd] at hz
  have hnum : j.num = z * (j.den : Int) := by exact_mod_cast hz
  have hdz : (j.den : Int) ≠ 0 := by exact_mod_cast Nat.pos_iff_ne_zero.mp j.den_pos
  rw [hnum, Int.mul_ediv_cancel _ hdz]


theorem jsIndexOf_eq_none {l : List String} {a : String} (h : a ∉ l) :
    jsIndexOf l a = none := by
  induction l with
  | nil => rfl
  | cons x xs ih =>
    have hx : ¬ x = a := fun hc => h (hc ▸ List.mem_cons_self x xs)
    have hxs : a ∉ xs := fun hc => h (List.mem_cons_of_mem _ hc)
    simp [jsIndexOf, hx, ih hxs]

theorem jsIndexOf_first {l : List String} {a : String} :
    ∀ {n : Nat}, jsIndexOf l a = some n →
      l.get? n = some a ∧ ∀ k, k < n → l.get? k ≠ some a := by
  induction l with
  | nil => intro n h; exact absurd h (by simp [jsIndexOf])
  | cons x xs ih =>
    intro n h
    by_cases hx : x = a
    · simp only [jsIndexOf, hx, if_pos rfl] at h
      cases h
      exact ⟨by simp [hx], fun k hk => absurd hk (Nat.not_lt_zero k)⟩
    · rw [jsIndexOf, if_neg hx] at h
      match hm : jsIndexOf xs a with
      | none => rw [hm] at h; cases h
      | some m =>
        rw [hm] at h
        have h2 : some (m + 1) = some n := h
        cases Option.some.inj h2
        rcases ih hm with ⟨h1, h2⟩
        refine ⟨by simpa using h1, ?_⟩
        intro k hk
        match k with
        | 0 => simpa using fun hc => hx hc
        | k + 1 =>
          have : k < m := by omega
          simpa using h2 k this

theorem textCount_aux (qi : Nat) (R : List ResponseSet) (n : Int) :
    R.foldl (fun n r => if truthy (answerAt r qi) then n + 1 else n) n =
      n + ((R.filter (fun r => truthy (answerAt r qi))).length : Int) := by
  induction R generalizing n with
  | nil => simp
  | cons r rs ih =>
    rw [List.foldl_cons, List.filter_cons]
    by_cases h : truthy (answerAt r qi)
    · rw [if_pos h, if_pos h, ih, List.length_cons]
      push_cast
      ring
    · rw [if_neg h, if_neg h, ih]

theorem textCount_eq_filter (qi : Nat) (R : List ResponseSet) :
    textCount qi R = ((R.filter (fun r => truthy (answerAt r qi))).length : Int) := by
  simpa using textCount_aux qi R 0

/-- C1: for a survey created with a single scale question with min 1 and
max 3, after submitting answers 2, 2 and 5 the analytics summary for the
question is bins [("1",0),("2",2),("3",0)]; the out-of-range 5 increments
no bin. -/
theorem c1_scale_end_to_end :
    (submitC1a.1 = .ok () ∧ submitC1b.1 = .ok () ∧ submitC1c.1 = .ok ()) ∧
    (analyticsRoute submitC1c.2 "s1").1 =
      .ok [Summary.scale "Q" [⟨"1", 0⟩, ⟨"2", 2⟩, ⟨"3", 0⟩] 1 3] := by decide

/-- C9: any question whose type tag is neither mcq nor scale — absent
tags and the spellings multiple_choice and free_text included — falls
through to the text branch, whose summary carries the truthy-answer
count. -/
theorem c9_kind_fallthrough (q : Question) (qi : Nat) (R : List ResponseSet)
    (h1 : q.qtype ≠ some "mcq") (h2 : q.qtype ≠ some "scale") :
    summarizeQ R qi q = .ok (.text q.text (textCount qi R)) := by
  simp [summarizeQ, h1, h2]

/-- C9 witness: the tags multiple_choice, free_text and an absent tag all
produce a text summary. -/
theorem c9_kind_fallthrough_witness :
    summarizeQ [] 0 ⟨some "multiple_choice", "Q", none, none, none⟩ = .ok (.text "Q" 0) ∧
    summarizeQ [] 0 ⟨some "free_text", "Q", none, none, none⟩ = .ok (.text "Q" 0) ∧
    summarizeQ [] 0 ⟨none, "Q", none, none, none⟩ = .ok (.text "Q" 0) :=
  ⟨c9_kind_fallthrough _ 0 [] (by decide) (by decide),
   c9_kind_fallthrough _ 0 [] (by decide) (by decide),
   c9_kind_fallthrough _ 0 [] (by decide) (by decide)⟩

/-- C7: for a free_text question the summary's count is exactly the
number of response sets whose answer at the question's index is truthy;
it never exceeds the number of responses, and an empty-string or missing
answer is never counted since it is not truthy. -/
theorem c7_text_truthy_count (q : Question) (qi : Nat) (R : List ResponseSet)
    (hq : q.qtype = some "free_text") :
    summarizeQ R qi q = .ok (.text q.text (textCount qi R)) ∧
    textCount qi R = ((R.filter (fun r => truthy (answerAt r qi))).length : Int) ∧
    textCount qi R ≤ (R.length : Int) ∧
    ∀ r : ResponseSet, (answerAt r qi = .vStr "" ∨ answerAt r qi = .vUndefined) →
      truthy (answerAt r qi) = false := by
  refine ⟨by simp [summarizeQ, hq], textCount_eq_filter qi R, ?_, ?_⟩
  · rw [textCount_eq_filter]
    exact_mod_cast List.length_filter_le _ R
  · intro r h
    rcases h with h | h <;> rw [h] <;> rfl

/-- C7 witness: a survey with answers "hi", "" and a missing answer
counts exactly one truthy answer. -/
theorem c7_text_truthy_count_witness :
    summarizeQ rsW7 0 qW7 = .ok (.text "Q" 1) ∧
    textCount 0 rsW7 = ((rsW7.filter (fun r => truthy (answerAt r 0))).length : Int) ∧
    textCount 0 rsW7 ≤ (rsW7.length : Int) :=
  ⟨(c7_text_truthy_count qW7 0 rsW7 rfl).1,
   (c7_text_truthy_count qW7 0 rsW7 rfl).2.1,
   (c7_text_truthy_count qW7 0 rsW7 rfl).2.2.1⟩


/-- C6: the analytics route is a pure function of the stored survey and
its stored response list: it writes nothing to the DB, two DB states
agreeing on the survey and its responses give identical output, and
recomputing right after a first computation yields the identical result. -/
theorem c6_analytics_pure (db db2 : DBState) (id : String)
    (hs : db.surveys id = db2.surveys id)
    (hr : db.responses id = db2.responses id) :
    (analyticsRoute db id).2 = db ∧
    (analyticsRoute db id).1 = (analyticsRoute db2 id).1 ∧
    (analyticsRoute ((analyticsRoute db id).2) id).1 = (analyticsRoute db id).1 := by
  have h2 : (analyticsRoute db id).2 = db := by
    unfold analyticsRoute
    cases h : db.surveys id with
    | none => rfl
    | some s =>
      dsimp only
      cases analytics s ((db.responses id).getD []) <;> rfl
  refine ⟨h2, ?_, by rw [h2]⟩
  unfold analyticsRoute
  rw [hs, hr]
  cases db2.surveys id with
  | none => rfl
  | some s =>
    dsimp only
    cases analytics s ((db2.responses id).getD []) <;> rfl

/-- C6 witness: on the populated end-to-end DB state, the route writes
nothing and recomputation is identical. -/
theorem c6_analytics_pure_witness :
    (analyticsRoute submitC1c.2 "s1").2 = submitC1c.2 ∧
    (analyticsRoute submitC1c.2 "s1").1 = (analyticsRoute submitC1c.2 "s1").1 ∧
    (analyticsRoute ((analyticsRoute submitC1c.2 "s1").2) "s1").1 =
      (analyticsRoute submitC1c.2 "s1").1 :=
  c6_analytics_pure submitC1c.2 submitC1c.2 "s1" rfl rfl

/-- C8: submitting to an unknown survey id fails with 404 and leaves the
DB exactly as it was; a missing (non-array) answers body fails with 400;
otherwise exactly one response set carrying the current timestamp is
appended to that survey's response list, and no survey and no other
response list changes. -/
theorem c8_submit_contract (db : DBState) (id : String)
    (answers : Option (List (Option JSVal))) (now : Nat) :
    (db.surveys id = none → submitRoute db id answers now = (.error .notFound, db)) ∧
    ((∃ sv, db.surveys id = some sv) → answers = none →
      submitRoute db id answers now = (.error (.validation "answers required"), db)) ∧
    (∀ sv rl as, db.surveys id = some sv → db.responses id = some rl → answers = some as →
      (submitRoute db id answers now).1 = .ok () ∧
      (submitRoute db id answers now).2.responses id = some (rl ++ [⟨now, as⟩]) ∧
      (submitRoute db id answers now).2.surveys = db.surveys ∧
      ∀ k, k ≠ id → (submitRoute db id answers now).2.responses k = db.responses k) := by
  refine ⟨?_, ?_, ?_⟩
  · intro h
    simp [submitRoute, h]
  · rintro ⟨sv, hsv⟩ rfl
    simp [submitRoute, hsv]
  · rintro sv rl as hsv hrl rfl
    simp only [submitRoute, hsv, hrl]
    refine ⟨trivial, ?_, trivial, ?_⟩
    · simp
    · intro k hk
      simp [hk]

/-- C8 witness: on the end-to-end DB, an unknown id 404s without change,
a missing answers body 400s, and a successful submission appends one
timestamped response set. -/
theorem c8_submit_contract_witness :
    submitRoute dbC1 "zz" (some []) 0 = (.error .notFound, dbC1) ∧
    submitRoute dbC1 "s1" none 0 = (.error (.validation "answers required"), dbC1) ∧
    (submitRoute dbC1 "s1" (some [some (.vStr "x")]) 7).2.responses "s1" =
      some [⟨7, [some (.vStr "x")]⟩] :=
  ⟨(c8_submit_contract dbC1 "zz" (some []) 0).1 rfl,
   (c8_submit_contract dbC1 "s1" none 0).2.1 ⟨_, rfl⟩ rfl,
   ((c8_submit_contract dbC1 "s1" (some [some (.vStr "x")]) 7).2.2 _ [] _ rfl rfl rfl).2.1⟩

/-- C2: an answer whose trimmed string matches no label contributes
nothing to the mcq tally (the fold over the remaining responses is
unchanged), and the labels of any produced mcq summary are exactly the
processed options, so an unmatched answer value never appears in them. -/
theorem c2_unmatched_skipped (q : Question) (qi : Nat) (r : ResponseSet)
    (R : List ResponseSet) (cs : List Int) (a : String)
    (ha : trimAnswer (answerAt r qi) = .ok a)
    (hnot : a ∉ labelsOf q) :
    mcqCounts (labelsOf q) qi (r :: R) cs = mcqCounts (labelsOf q) qi R cs ∧
    ∀ t ls cs2, summarizeQ R qi q = .ok (.mcq t ls cs2) → ls = labelsOf q := by
  constructor
  · simp only [mcqCounts, mcqStep, ha, jsIndexOf_eq_none hnot]
  · intro t ls cs2 hok
    unfold summarizeQ at hok
    by_cases h1 : q.qtype = some "mcq"
    · rw [if_pos h1] at hok
      cases hm : mcqCounts (labelsOf q) qi R ((labelsOf q).map (fun _ => (0 : Int))) with
      | error e => rw [hm] at hok; cases hok
      | ok cs3 =>
        rw [hm] at hok
        have := Except.ok.inj hok
        cases this
        rfl
    · rw [if_neg h1] at hok
      by_cases h2 : q.qtype = some "scale"
      · rw [if_pos h2] at hok
        cases hm : scaleCounts (minOf q) qi R (binsInit q) with
        | error e => rw [hm] at hok; cases hok
        | ok bs => rw [hm] at hok; cases Except.ok.inj hok
      · rw [if_neg h2] at hok
        cases Except.ok.inj hok

/-- C2 witness: the answer " Maybe " trims to Maybe, matches neither
option, and contributes nothing; the summary labels are the options. -/
theorem c2_unmatched_skipped_witness :
    mcqCounts (labelsOf qW2) 0 [rW2] [0, 0] = mcqCounts (labelsOf qW2) 0 [] [0, 0] ∧
    ["Yes", "No"] = labelsOf qW2 :=
  ⟨(c2_unmatched_skipped qW2 0 rW2 [] [0, 0] "Maybe" (by decide) (by decide)).1,
   (c2_unmatched_skipped qW2 0 rW2 [] [0, 0] "Maybe" (by decide) (by decide)).2
     "Q" ["Yes", "No"] [0, 0] (by decide)⟩


/-- C3 counterexample: for the scale question with min 1 and max 3 and
the fractional answer 1.5 (offset 0.5, in range but not an integer), the
aggregation throws a TypeError instead of dropping the answer, so it
does not equal the zero-response summary the claim predicts. -/
theorem c3_counterexample :
    analytics svC3 [rC3] = .error "TypeError: cannot read count of undefined" ∧
    analytics svC3 [rC3] ≠ analytics svC3 [] := by decide

/-- C3 amended: the bin offset is computed exactly as value - min with no
rounding; a fractional offset outside [0, bins-length) is skipped, while
a fractional offset inside the range throws a TypeError — in neither
case is a bin incremented. -/
theorem c3_fractional (mn : Int) (qi : Nat) (r : ResponseSet) (R : List ResponseSet)
    (bs : List Bin) (v : JNum)
    (hv : toNumber (answerAt r qi) = some v)
    (hfrac : ¬ ((v.subInt mn).den : Int) ∣ (v.subInt mn).num) :
    scaleCounts mn qi (r :: R) bs =
      if 0 ≤ (v.subInt mn).num ∧
         (v.subInt mn).num < (bs.length : Int) * ((v.subInt mn).den : Int)
      then .error "TypeError: cannot read count of undefined"
      else scaleCounts mn qi R bs := by
  by_cases h : 0 ≤ (v.subInt mn).num ∧
      (v.subInt mn).num < (bs.length : Int) * ((v.subInt mn).den : Int)
  · rw [if_pos h]
    simp only [scaleCounts, scaleStep, hv]
    rw [if_pos h, if_neg hfrac]
  · rw [if_neg h]
    simp only [scaleCounts, scaleStep, hv]
    rw [if_neg h]

/-- C3 amended witness: the fractional answer 1.5 lands in range for the
min 1, max 3 question and raises the TypeError. -/
theorem c3_fractional_witness :
    scaleCounts 1 0 [rC3] (binsInit qC1) =
      .error "TypeError: cannot read count of undefined" := by
  rw [c3_fractional 1 0 rC3 [] (binsInit qC1) ⟨3, 2, Nat.zero_lt_two⟩ (by decide) (by decide)]
  decide

/-- C4 counterexample: the numeric answer 5 to an mcq question throws a
TypeError in (answer || '').trim(), so the aggregator does not terminate
without error for every response sequence. -/
theorem c4_counterexample :
    analytics svC4 [rC4] = .error "TypeError: trim is not a function" := by decide

theorem trimAnswer_ok_of_safe (x : JSVal)
    (h : truthy x = false ∨ ∃ s, x = JSVal.vStr s) :
    ∃ a, trimAnswer x = .ok a := by
  rcases h with hf | ⟨s, rfl⟩
  · exact ⟨"", by simp [trimAnswer, hf]⟩
  · by_cases ht : truthy (JSVal.vStr s)
    · exact ⟨jsTrim s, by simp [trimAnswer, ht]⟩
    · exact ⟨"", by simp [trimAnswer, ht]⟩

theorem mcqCounts_ok (ls : List String) (qi : Nat) (R : List ResponseSet)
    (h : ∀ r ∈ R, truthy (answerAt r qi) = false ∨ ∃ s, answerAt r qi = JSVal.vStr s) :
    ∀ cs, ∃ cs2, mcqCounts ls qi R cs = .ok cs2 := by
  induction R with
  | nil => intro cs; exact ⟨cs, rfl⟩
  | cons r rs ih =>
    intro cs
    rcases trimAnswer_ok_of_safe _ (h r (List.mem_cons_self r rs)) with ⟨a, ha⟩
    have hrest : ∀ r2 ∈ rs, truthy (answerAt r2 qi) = false ∨ ∃ s, answerAt r2 qi = JSVal.vStr s :=
      fun r2 hr2 => h r2 (List.mem_cons_of_mem _ hr2)
    simp only [mcqCounts, mcqStep, ha]
    cases hidx : jsIndexOf ls a with
    | some i => exact ih hrest (bumpAt cs i)
    | none => exact ih hrest cs

theorem scaleStep_ok_of_safe (mn : Int) (qi : Nat) (bs : List Bin) (r : ResponseSet)
    (h : toNumber (answerAt r qi) = none ∨
      ∃ j, toNumber (answerAt r qi) = some j ∧ ((j.den : Int) ∣ j.num)) :
    ∃ bs2, scaleStep mn qi bs r = .ok bs2 := by
  rcases h with hn | ⟨j, hj, hdvd⟩
  · exact ⟨bs, by simp [scaleStep, hn]⟩
  · have hdvd2 : ((j.subInt mn).den : Int) ∣ (j.subInt mn).num := by
      simp only [JNum.subInt]
      exact dvd_sub hdvd (dvd_rfl.mul_left mn)
    by_cases hin : 0 ≤ (j.subInt mn).num ∧
        (j.subInt mn).num < (bs.length : Int) * ((j.subInt mn).den : Int)
    · refine ⟨bumpBin bs ((j.subInt mn).num / ((j.subInt mn).den : Int)).toNat, ?_⟩
      simp only [scaleStep, hj]
      rw [if_pos hin, if_pos hdvd2]
    · refine ⟨bs, ?_⟩
      simp only [scaleStep, hj]
      rw [if_neg hin]

theorem scaleCounts_ok (mn : Int) (qi : Nat) (R : List ResponseSet)
    (h : ∀ r ∈ R, toNumber (answerAt r qi) = none ∨
      ∃ j, toNumber (answerAt r qi) = some j ∧ ((j.den : Int) ∣ j.num)) :
    ∀ bs, ∃ bs2, scaleCounts mn qi R bs = .ok bs2 := by
  induction R with
  | nil => intro bs; exact ⟨bs, rfl⟩
  | cons r rs ih =>
    intro bs
    rcases scaleStep_ok_of_safe mn qi bs r (h r (List.mem_cons_self r rs)) with ⟨bs1, hb⟩
    have hrest := fun r2 hr2 => h r2 (List.mem_cons_of_mem _ hr2)
    simp only [scaleCounts, hb]
    exact ih hrest bs1

theorem summarizeQ_ok (R : List ResponseSet) (qi : Nat) (q : Question)
    (h : ∀ r ∈ R, safeAnswer q (answerAt r qi)) :
    ∃ s, summarizeQ R qi q = .ok s := by
  unfold summarizeQ
  by_cases h1 : q.qtype = some "mcq"
  · rw [if_pos h1]
    rcases mcqCounts_ok (labelsOf q) qi R (fun r hr => (h r hr).1 h1)
      ((labelsOf q).map (fun _ => (0 : Int))) with ⟨cs, hcs⟩
    rw [hcs]
    exact ⟨_, rfl⟩
  · rw [if_neg h1]
    by_cases h2 : q.qtype = some "scale"
    · rw [if_pos h2]
      rcases scaleCounts_ok (minOf q) qi R (fun r hr => (h r hr).2 h2) (binsInit q) with ⟨bs, hbs⟩
      rw [hbs]
      exact ⟨_, rfl⟩
    · rw [if_neg h2]
      exact ⟨_, rfl⟩

theorem analyticsGo_ok (R : List ResponseSet) :
    ∀ (qs : List Question) (qi : Nat),
      (∀ r ∈ R, ∀ k q, qs.get? k = some q → safeAnswer q (answerAt r (qi + k))) →
      ∃ out, analyticsGo R qi qs = .ok out := by
  intro qs
  induction qs with
  | nil => intro qi h; exact ⟨[], rfl⟩
  | cons q rest ih =>
    intro qi h
    have hq : ∀ r ∈ R, safeAnswer q (answerAt r qi) := by
      intro r hr
      simpa using h r hr 0 q rfl
    rcases summarizeQ_ok R qi q hq with ⟨s, hs⟩
    have hrest : ∀ r ∈ R, ∀ k q2, rest.get? k = some q2 →
        safeAnswer q2 (answerAt r ((qi + 1) + k)) := by
      intro r hr k q2 hk
      have hx := h r hr (k + 1) q2 hk
      have harith : qi + (k + 1) = (qi + 1) + k := by omega
      rwa [harith] at hx
    rcases ih (qi + 1) hrest with ⟨out, hout⟩
    refine ⟨s :: out, ?_⟩
    simp only [analyticsGo, hs, hout]

/-- C4 amended: the aggregator returns a summary list (no error) for
every response sequence whose present answers are type-correct per
question kind — mcq answers falsy or strings, scale answers converting
to NaN or an integral number; and a missing answer (answers list shorter
than the question list) is always safe: it reads as undefined, which is
falsy, trims to the empty string and converts to NaN, so it is skipped
by every branch rather than raising an error. A truthy non-string mcq
answer or a fractional in-range scale answer raises a TypeError instead
(see the counterexample). -/
theorem c4_safety (sv : Survey) (R : List ResponseSet)
    (hsafe : ∀ r ∈ R, ∀ k q, sv.questions.get? k = some q → safeAnswer q (answerAt r k)) :
    (∃ out, analytics sv R = .ok out) ∧
    ∀ (r : ResponseSet) (qi : Nat), r.answers.get? qi = none →
      truthy (answerAt r qi) = false ∧ trimAnswer (answerAt r qi) = .ok "" ∧
      toNumber (answerAt r qi) = none := by
  constructor
  · have h0 : ∀ r ∈ R, ∀ k q, sv.questions.get? k = some q →
        safeAnswer q (answerAt r (0 + k)) := by
      intro r hr k q hk
      simpa using hsafe r hr k q hk
    exact analyticsGo_ok R sv.questions 0 h0
  · intro r qi h
    have ha : answerAt r qi = .vUndefined := by unfold answerAt; rw [h]
    rw [ha]
    exact ⟨rfl, rfl, rfl⟩

/-- C4 witness: a type-correct mcq response aggregates successfully, and
an absent answer reads as undefined with the three skip conversions. -/
theorem c4_safety_witness :
    (∃ out, analytics svC4 [rSafe4] = .ok out) ∧
    (truthy (answerAt rShort 1) = false ∧ trimAnswer (answerAt rShort 1) = .ok "" ∧
      toNumber (answerAt rShort 1) = none) :=
  ⟨(c4_safety svC4 [rSafe4] (by
      intro r hr k q hk
      rcases List.mem_singleton.mp hr with rfl
      match k, hk with
      | 0, hk =>
        cases Option.some.inj hk
        exact ⟨fun _ => Or.inr ⟨"A", rfl⟩, fun hscale => absurd hscale (by decide)⟩
      | k + 1, hk => exact absurd hk (by simp [svC4]))).1,
   (c4_safety svC4 [rSafe4] (by
      intro r hr k q hk
      rcases List.mem_singleton.mp hr with rfl
      match k, hk with
      | 0, hk =>
        cases Option.some.inj hk
        exact ⟨fun _ => Or.inr ⟨"A", rfl⟩, fun hscale => absurd hscale (by decide)⟩
      | k + 1, hk => exact absurd hk (by simp [svC4]))).2 rShort 1 rfl⟩

/-- C5 counterexample: a scale question with min 5 and max 1 produces a
summary with zero bins, but max - min + 1 = -3, so the stated
bins-length invariant fails for this survey. -/
theorem c5_counterexample :
    analytics svC5 [] = .ok [Summary.scale "Q" [] 5 1] ∧
    (([] : List Bin).length : Int) ≠ 1 - 5 + 1 := by decide

theorem bumpAt_length (cs : List Int) : ∀ i, (bumpAt cs i).length = cs.length := by
  induction cs with
  | nil => intro i; rfl
  | cons c cs ih =>
    intro i
    cases i with
    | zero => rfl
    | succ n => simp [bumpAt, ih n]

theorem bumpAt_nonneg (cs : List Int) (h : ∀ c ∈ cs, 0 ≤ c) :
    ∀ i, ∀ c ∈ bumpAt cs i, 0 ≤ c := by
  induction cs with
  | nil => intro i c hc; cases hc
  | cons a cs ih =>
    intro i c hc
    cases i with
    | zero =>
      rcases List.mem_cons.mp hc with rfl | hcs
      · have := h a (List.mem_cons_self a cs)
        omega
      · exact h c (List.mem_cons_of_mem _ hcs)
    | succ n =>
      rcases List.mem_cons.mp hc with rfl | hcs
      · exact h c (List.mem_cons_self c cs)
      · exact ih (fun d hd => h d (List.mem_cons_of_mem _ hd)) n c hcs

theorem bumpBin_length (bs : List Bin) : ∀ i, (bumpBin bs i).length = bs.length := by
  induction bs with
  | nil => intro i; rfl
  | cons b bs ih =>
    intro i
    cases i with
    | zero => rfl
    | succ n => simp [bumpBin, ih n]

theorem bumpBin_nonneg (bs : List Bin) (h : ∀ b ∈ bs, 0 ≤ b.count) :
    ∀ i, ∀ b ∈ bumpBin bs i, 0 ≤ b.count := by
  induction bs with
  | nil => intro i b hb; cases hb
  | cons a bs ih =>
    intro i b hb
    cases i with
    | zero =>
      rcases List.mem_cons.mp hb with rfl | hbs
      · have := h a (List.mem_cons_self a bs)
        simp only [Bin.mk.injEq]
        omega
      · exact h b (List.mem_cons_of_mem _ hbs)
    | succ n =>
      rcases List.mem_cons.mp hb with rfl | hbs
      · exact h b (List.mem_cons_self b bs)
      · exact ih (fun d hd => h d (List.mem_cons_of_mem _ hd)) n b hbs

theorem mcqStep_shape (ls : List String) (qi : Nat) (cs : List Int) (r : ResponseSet)
    {cs2 : List Int} (h : mcqStep ls qi cs r = .ok cs2) :
    cs2 = cs ∨ ∃ i, cs2 = bumpAt cs i := by
  unfold mcqStep at h
  split at h
  · cases h
  · split at h
    · exact Or.inr ⟨_, (Except.ok.inj h).symm⟩
    · exact Or.inl (Except.ok.inj h).symm

theorem mcqCounts_preserve (ls : List String) (qi : Nat) :
    ∀ (R : List ResponseSet) (cs cs2 : List Int),
      mcqCounts ls qi R cs = .ok cs2 →
      cs2.length = cs.length ∧ ((∀ c ∈ cs, 0 ≤ c) → ∀ c ∈ cs2, 0 ≤ c) := by
  intro R
  induction R with
  | nil =>
    intro cs cs2 h
    cases Except.ok.inj h
    exact ⟨rfl, fun h2 => h2⟩
  | cons r rs ih =>
    intro cs cs2 h
    unfold mcqCounts at h
    split at h
    · cases h
    · next cs1 hstep =>
      rcases mcqStep_shape ls qi cs r hstep with heq | ⟨i, heq⟩
      · subst heq
        exact ih _ cs2 h
      · subst heq
        rcases ih (bumpAt cs i) cs2 h with ⟨hl, hn⟩
        exact ⟨by rw [hl, bumpAt_length], fun h0 => hn (bumpAt_nonneg cs h0 i)⟩

theorem scaleStep_shape (mn : Int) (qi : Nat) (bs : List Bin) (r : ResponseSet)
    {bs2 : List Bin} (h : scaleStep mn qi bs r = .ok bs2) :
    bs2 = bs ∨ ∃ i, bs2 = bumpBin bs i := by
  unfold scaleStep at h
  split at h
  · exact Or.inl (Except.ok.inj h).symm
  · split at h
    · split at h
      · exact Or.inr ⟨_, (Except.ok.inj h).symm⟩
      · cases h
    · exact Or.inl (Except.ok.inj h).symm

theorem scaleCounts_preserve (mn : Int) (qi : Nat) :
    ∀ (R : List ResponseSet) (bs bs2 : List Bin),
      scaleCounts mn qi R bs = .ok bs2 →
      bs2.length = bs.length ∧ ((∀ b ∈ bs, 0 ≤ b.count) → ∀ b ∈ bs2, 0 ≤ b.count) := by
  intro R
  induction R with
  | nil =>
    intro bs bs2 h
    cases Except.ok.inj h
    exact ⟨rfl, fun h2 => h2⟩
  | cons r rs ih =>
    intro bs bs2 h
    unfold scaleCounts at h
    split at h
    · cases h
    · next bs1 hstep =>
      rcases scaleStep_shape mn qi bs r hstep with heq | ⟨i, heq⟩
      · subst heq
        exact ih _ bs2 h
      · subst heq
        rcases ih (bumpBin bs i) bs2 h with ⟨hl, hn⟩
        exact ⟨by rw [hl, bumpBin_length], fun h0 => hn (bumpBin_nonneg bs h0 i)⟩

theorem textCount_nonneg (qi : Nat) (R : List ResponseSet) : 0 ≤ textCount qi R := by
  rw [textCount_eq_filter]
  exact Int.natCast_nonneg _

theorem binsInit_length (q : Question) :
    (binsInit q).length = (maxOf q - minOf q + 1).toNat := by
  unfold binsInit
  rw [List.length_map, List.length_range]

theorem binsInit_nonneg (q : Question) : ∀ b ∈ binsInit q, 0 ≤ b.count := by
  intro b hb
  simp only [binsInit, List.mem_map] at hb
  rcases hb with ⟨i, _, rfl⟩
  exact le_refl 0

theorem summarizeQ_inv (R : List ResponseSet) (qi : Nat) (q : Question) (s : Summary)
    (h : summarizeQ R qi q = .ok s) : summaryInv s := by
  unfold summarizeQ at h
  split at h
  · split at h
    · cases h
    · next cs hcs =>
      cases Except.ok.inj h
      rcases mcqCounts_preserve (labelsOf q) qi R _ cs hcs with ⟨hl, hn⟩
      refine ⟨by simpa using hl, ?_⟩
      refine hn ?_
      intro c hc
      rcases List.mem_map.mp hc with ⟨_, _, rfl⟩
      exact le_refl 0
  · split at h
    · split at h
      · cases h
      · next bs hbs =>
        cases Except.ok.inj h
        rcases scaleCounts_preserve (minOf q) qi R _ bs hbs with ⟨hl, hn⟩
        have hlen : bs.length = (maxOf q - minOf q + 1).toNat := by
          rw [hl, binsInit_length]
        refine ⟨hlen, ?_, hn (binsInit_nonneg q)⟩
        intro hmm
        rw [hlen]
        rw [Int.toNat_of_nonneg (by omega)]
    · cases Except.ok.inj h
      exact textCount_nonneg qi R

theorem analyticsGo_inv (R : List ResponseSet) :
    ∀ (qs : List Question) (qi : Nat) (out : List Summary),
      analyticsGo R qi qs = .ok out → ∀ s ∈ out, summaryInv s := by
  intro qs
  induction qs with
  | nil =>
    intro qi out h s hs
    cases Except.ok.inj h
    cases hs
  | cons q rest ih =>
    intro qi out h s hs
    unfold analyticsGo at h
    split at h
    · cases h
    · next s1 hs1 =>
      split at h
      · cases h
      · next out1 hout1 =>
        cases Except.ok.inj h
        rcases List.mem_cons.mp hs with rfl | hmem
        · exact summarizeQ_inv R qi q s hs1
        · exact ih (qi + 1) out1 hout1 s hmem

/-- C5 amended: every summary the aggregator actually produces satisfies
the invariants: counts parallel to labels and non-negative for mcq;
for scale, the bins count is max(0, max - min + 1) — exactly
max - min + 1 whenever min <= max — with non-negative bin counts; and a
non-negative count for text. -/
theorem c5_summary_invariants (sv : Survey) (R : List ResponseSet) (out : List Summary)
    (h : analytics sv R = .ok out) : ∀ s ∈ out, summaryInv s :=
  analyticsGo_inv R sv.questions 0 out h

/-- C5 witness: the invariant holds for the summary of the end-to-end
scenario. -/
theorem c5_summary_invariants_witness :
    summaryInv (Summary.scale "Q" [⟨"1", 0⟩, ⟨"2", 2⟩, ⟨"3", 0⟩] 1 3) :=
  c5_summary_invariants ⟨"s1", "T", [qC1]⟩
    [⟨1, [some (.vNum (.ofInt 2))]⟩, ⟨2, [some (.vNum (.ofInt 2))]⟩, ⟨3, [some (.vNum (.ofInt 5))]⟩]
    [Summary.scale "Q" [⟨"1", 0⟩, ⟨"2", 2⟩, ⟨"3", 0⟩] 1 3] (by decide) _ (by decide)

theorem bumpAt_get_ne (cs : List Int) :
    ∀ (i j : Nat), i ≠ j → (bumpAt cs i).get? j = cs.get? j := by
  induction cs with
  | nil => intro i j hne; rfl
  | cons c cs ih =>
    intro i j hne
    cases i with
    | zero =>
      cases j with
      | zero => exact absurd rfl hne
      | succ m => rfl
    | succ n =>
      cases j with
      | zero => rfl
      | succ m =>
        simp only [bumpAt, List.get?_cons_succ]
        exact ih n m (fun hc => hne (by rw [hc]))

theorem mcqCounts_get_stable (ls : List String) (qi : Nat) (j : Nat)
    (hj : ∀ a, jsIndexOf ls a ≠ some j) :
    ∀ (R : List ResponseSet) (cs cs2 : List Int),
      mcqCounts ls qi R cs = .ok cs2 → cs2.get? j = cs.get? j := by
  intro R
  induction R with
  | nil =>
    intro cs cs2 h
    cases Except.ok.inj h
    rfl
  | cons r rs ih =>
    intro cs cs2 h
    unfold mcqCounts at h
    split at h
    · cases h
    · next cs1 hstep =>
      have hg : cs1.get? j = cs.get? j := by
        unfold mcqStep at hstep
        split at hstep
        · cases hstep
        · split at hstep
          · next i hidx =>
            cases Except.ok.inj hstep
            exact bumpAt_get_ne cs i j (fun hij => hj _ (hij ▸ hidx))
          · cases Except.ok.inj hstep
            rfl
      rw [ih cs1 cs2 h, hg]

/-- C10: when the processed labels repeat — index i strictly before
index j holding the same label — the count at the later index j of any
mcq summary the aggregator produces is 0: indexOf always resolves to
the first occurrence, so the later count is never incremented. -/
theorem c10_duplicate_label (q : Question) (qi : Nat) (R : List ResponseSet)
    (i j : Nat) (hij : i < j) (hdup : (labelsOf q).get? i = (labelsOf q).get? j)
    (hjlen : j < (labelsOf q).length)
    (t : String) (ls : List String) (cs : List Int)
    (hok : summarizeQ R qi q = .ok (.mcq t ls cs)) :
    cs.get? j = some 0 := by
  have hstable : ∀ a, jsIndexOf (labelsOf q) a ≠ some j := by
    intro a hja
    rcases jsIndexOf_first hja with ⟨hga, hfirst⟩
    have hgi : (labelsOf q).get? i = some a := by rw [hdup, hga]
    exact hfirst i hij hgi
  unfold summarizeQ at hok
  split at hok
  · split at hok
    · cases hok
    · next cs3 hcs3 =>
      have hinj := Except.ok.inj hok
      injection hinj with h1 h2 h3
      subst h3
      have hcount := mcqCounts_get_stable (labelsOf q) qi j hstable R _ _ hcs3
      rw [hcount, List.get?_map, List.get?_eq_get hjlen]
      rfl
  · split at hok
    · split at hok
      · cases hok
      · simp at hok
    · simp at hok

/-- C10 witness: options A and A-with-trailing-space both trim to A; a
matching response increments only index 0 and the duplicate keeps 0. -/
theorem c10_duplicate_label_witness :
    summarizeQ [rW10] 0 qW10 = .ok (.mcq "Q" ["A", "A"] [1, 0]) ∧
    ([1, 0] : List Int).get? 1 = some 0 :=
  ⟨by decide,
   c10_duplicate_label qW10 0 [rW10] 0 1 (by decide) (by decide) (by decide)
     "Q" ["A", "A"] [1, 0] (by decide)⟩

end SurveySrv
